import Mathlib

/-!
A verification development for the tree pattern-matching and substitution
engine of the `rust-refactor` crate (c2rust).

The convenience layer (`replace_expr`, `replace_stmts`, `find_first_with`,
`find_first`) and the `driver::Ctxt` extension helpers (`node_type`,
`adjusted_node_type`, `try_resolve_expr`, `resolve_expr`, `try_resolve_ty`,
`resolve_ty`, `opt_callee`, `callee`) are embedded from
`src/rust-refactor/src/api.rs`.  The engine proper (`bindings`, `matcher`,
`subst` modules) is not among the sources, so those definitions are modelled
from the specification (its sections 3, 4.1, 4.2, 4.3), as are the external
collaborators (textual parsing, the rustc HIR map and typeck tables), which
appear as explicit parameters or record fields.

Conventions: fragments of every kind are represented by one tree type with a
distinguished metavariable constructor; the semantic-equality oracle is
instantiated with structural equality; Rust panics are modelled as the
`Except.error` branch of an `Except String` result.
-/

/-- Modelled from the spec: a `Fragment` is an owned, kind-tagged syntax-tree
value; a `Metavariable` is a named placeholder embedded in a pattern fragment.
`node label children` is an ordinary tree node (a function application, an
operator, a statement sequence, ...); `meta name` is a metavariable
occurrence. -/
inductive Fragment where
  | meta (name : String)
  | node (label : String) (children : List Fragment)
deriving Repr

mutual

/-- Structural (boolean) equality of fragments. -/
def Fragment.beq : Fragment → Fragment → Bool
  | .meta x, .meta y => x == y
  | .node l cs, .node l' cs' => l == l' && Fragment.beqList cs cs'
  | _, _ => false

/-- Structural equality of fragment lists. -/
def Fragment.beqList : List Fragment → List Fragment → Bool
  | [], [] => true
  | c :: cs, c' :: cs' => Fragment.beq c c' && Fragment.beqList cs cs'
  | _, _ => false

end

mutual

theorem Fragment.beq_iff : ∀ a b : Fragment, Fragment.beq a b = true ↔ a = b
  | .meta x, .meta y => by simp [Fragment.beq]
  | .meta _, .node _ _ => by simp [Fragment.beq]
  | .node _ _, .meta _ => by simp [Fragment.beq]
  | .node l cs, .node l' cs' => by
    simp [Fragment.beq, Fragment.beqList_iff cs cs']

theorem Fragment.beqList_iff : ∀ a b : List Fragment, Fragment.beqList a b = true ↔ a = b
  | [], [] => by simp [Fragment.beqList]
  | [], _ :: _ => by simp [Fragment.beqList]
  | _ :: _, [] => by simp [Fragment.beqList]
  | c :: cs, c' :: cs' => by
    simp [Fragment.beqList, Fragment.beq_iff c c', Fragment.beqList_iff cs cs']

end

instance : DecidableEq Fragment :=
  fun a b => decidable_of_iff (Fragment.beq a b = true) (Fragment.beq_iff a b)

/-- A structural induction principle for `Fragment` that hands the node case
the induction hypothesis for every member of the child list. -/
theorem Fragment.ind {P : Fragment → Prop} (hm : ∀ x, P (Fragment.meta x))
    (hn : ∀ l cs, (∀ c ∈ cs, P c) → P (Fragment.node l cs)) : ∀ t, P t
  | .meta x => hm x
  | .node l cs => hn l cs (fun c hc =>
      have : sizeOf c < sizeOf (Fragment.node l cs) := by
        have := List.sizeOf_lt_of_mem hc
        simp only [Fragment.node.sizeOf_spec]
        omega
      Fragment.ind hm hn c)
termination_by t => sizeOf t

/-- Modelled from the spec: the `Bindings` store is a mapping from
metavariable name to a captured fragment, here an association list queried
with `List.lookup`. -/
abbrev Bindings := List (String × Fragment)

/-- Modelled from the spec: a `MatchCtxt` is a match session carrying a
`Bindings` store (the semantic-equality oracle it also carries is
instantiated with structural equality here). -/
structure MatchCtxt where
  bindings : Bindings
deriving Repr, DecidableEq

/-- Errors of the engine: parse failures of the convenience layer's textual
pattern/replacement (the external parser), and the
`UnboundVariableInTemplate` usage error of substitution. -/
inductive RewriteError where
  | parseError (msg : String)
  | unboundVariableInTemplate (name : String)
deriving Repr, DecidableEq

mutual

/-- Modelled from the spec (section 4.1): the recursive matcher, threading the
match session's mutable `Bindings` store exactly as the Rust matcher mutates
its `MatchCtxt`.  Returns the store as updated by the attempt — on failure
this may contain partial bindings added before the point of failure — plus a
success flag.  A bare metavariable captures the whole candidate unless it is
already bound to a different fragment; node against node requires the same
label and the same number of children, then matches the children pairwise
left to right, short-circuiting on the first failure. -/
def matchInto : Fragment → Fragment → Bindings → Bindings × Bool
  | .meta x, c, b =>
    match b.lookup x with
    | some t => if t = c then (b, true) else (b, false)
    | none => ((x, c) :: b, true)
  | .node l ps, .node l' cs, b =>
    if l = l' ∧ ps.length = cs.length then matchIntoList ps cs b
    else (b, false)
  | .node _ _, .meta _, b => (b, false)

/-- Pairwise left-to-right matching of child lists, short-circuiting on the
first failing child. -/
def matchIntoList : List Fragment → List Fragment → Bindings → Bindings × Bool
  | [], [], b => (b, true)
  | p :: ps, c :: cs, b =>
    let r := matchInto p c b
    if r.2 then matchIntoList ps cs r.1 else (r.1, false)
  | _, _, b => (b, false)

end

/-- Modelled from the spec (section 4.1): the top-level match attempt on a
`MatchCtxt`.  On success the context carries the extended bindings, which are
also returned; on failure the context is restored to its prior state, so no
partial mutation of a failed attempt escapes. -/
def MatchCtxt.try_match (mcx : MatchCtxt) (pat cand : Fragment) :
    MatchCtxt × Option Bindings :=
  let r := matchInto pat cand mcx.bindings
  if r.2 then (⟨r.1⟩, some r.1) else (mcx, none)

/-- The matcher as a partial function: the bindings produced by a successful
match of `pat` against `cand` starting from store `b`, or `none`. -/
def mtch (pat cand : Fragment) (b : Bindings) : Option Bindings :=
  (MatchCtxt.try_match ⟨b⟩ pat cand).2

mutual

/-- Modelled from the spec (section 4.2): substitution instantiates a template
fragment by replacing every metavariable occurrence with its bound fragment;
a metavariable absent from the bindings is the fatal
`UnboundVariableInTemplate` error (a Rust panic), so no output tree is
produced. -/
def subst : Fragment → Bindings → Except RewriteError Fragment
  | .meta x, bnd =>
    match bnd.lookup x with
    | some t => .ok t
    | none => .error (.unboundVariableInTemplate x)
  | .node l cs, bnd =>
    match substList cs bnd with
    | .ok cs' => .ok (.node l cs')
    | .error e => .error e

/-- Substitution over a child list, left to right, aborting on the first
error. -/
def substList : List Fragment → Bindings → Except RewriteError (List Fragment)
  | [], _ => .ok []
  | c :: cs, bnd =>
    match subst c bnd with
    | .ok c' =>
      match substList cs bnd with
      | .ok cs' => .ok (c' :: cs')
      | .error e => .error e
    | .error e => .error e

end

mutual

/-- Modelled from the spec (section 4.3): the fold-match traversal driver
(`matcher::fold_match_with`).  Pre-order: each position is first tried with a
fresh per-position `MatchCtxt` seeded from `init_mcx`; where the match
succeeds the caller's callback replaces the node (threading its state `s`),
and the driver does NOT re-descend into the replacement; where it fails the
driver descends into the original node's children.  A callback error (a Rust
panic, e.g. from substitution) aborts the whole traversal. -/
def fold_match_with {σ : Type} (init_mcx : MatchCtxt) (pat : Fragment)
    (f : σ → Fragment → Bindings → Except RewriteError (σ × Fragment))
    (s : σ) (t : Fragment) : Except RewriteError (σ × Fragment) :=
  match mtch pat t init_mcx.bindings with
  | some bnd => f s t bnd
  | none =>
    match t with
    | .meta x => .ok (s, .meta x)
    | .node l cs =>
      match fold_match_with_list init_mcx pat f s cs with
      | .ok (s', cs') => .ok (s', .node l cs')
      | .error e => .error e

/-- The driver over a child list, left to right, threading the callback state
and aborting on the first callback error. -/
def fold_match_with_list {σ : Type} (init_mcx : MatchCtxt) (pat : Fragment)
    (f : σ → Fragment → Bindings → Except RewriteError (σ × Fragment))
    (s : σ) (cs : List Fragment) : Except RewriteError (σ × List Fragment) :=
  match cs with
  | [] => .ok (s, [])
  | c :: rest =>
    match fold_match_with init_mcx pat f s c with
    | .ok (s', c') =>
      match fold_match_with_list init_mcx pat f s' rest with
      | .ok (s'', cs') => .ok (s'', c' :: cs')
      | .error e => .error e
    | .error e => .error e

end

/-- From `api.rs`/`matcher`: `fold_match` is `fold_match_with` run with a
fresh `MatchCtxt` (empty bindings) and a stateless callback. -/
def fold_match (pat : Fragment)
    (f : Fragment → Bindings → Except RewriteError Fragment)
    (target : Fragment) : Except RewriteError Fragment :=
  match fold_match_with ⟨[]⟩ pat
      (fun (_ : Unit) p bnd =>
        match f p bnd with
        | .ok t => .ok ((), t)
        | .error e => .error e) () target with
  | .ok (_, t) => .ok t
  | .error e => .error e

/-- The callback of `find_first_with` (api.rs:70-75): state is the `result`
variable; the first successful match stores its bindings, every later match
leaves `result` alone; the matched fragment `p` is returned unchanged. -/
def first_cb : Option Bindings → Fragment → Bindings →
    Except RewriteError (Option Bindings × Fragment) :=
  fun result p bnd => .ok (if result.isNone then some bnd else result, p)

/-- From api.rs:65-77: find the first place where `pattern` matches under
initial context `init_mcx`, and return the resulting `Bindings`.  The
callback never fails, so the error branch is dead code. -/
def find_first_with (init_mcx : MatchCtxt) (pattern target : Fragment) :
    Option Bindings :=
  match fold_match_with init_mcx pattern first_cb none target with
  | .ok (result, _) => result
  | .error _ => none

/-- From api.rs:80-86: find the first place where `pattern` matches, with a
fresh `MatchCtxt`. -/
def find_first (pattern target : Fragment) : Option Bindings :=
  find_first_with ⟨[]⟩ pattern target

/-- From api.rs:41-49: replace all instances of expression `pat` with
expression `repl`.  The external textual parser (`driver::parse_expr`) is
passed in explicitly; both texts are parsed once, up front, and the parsed
replacement template is substituted with each match's bindings. -/
def replace_expr (parse : String → Except RewriteError Fragment)
    (pat repl : String) (ast : Fragment) : Except RewriteError Fragment :=
  match parse pat with
  | .error e => .error e
  | .ok p =>
    match parse repl with
    | .error e => .error e
    | .ok r => fold_match p (fun _ bnd => subst r bnd) ast

/-- From api.rs:52-60: replace all instances of the statement sequence `pat`
with `repl`; same shape as `replace_expr` with the statement parser
(`driver::parse_stmts`, passed in explicitly) and a statement-sequence
fragment. -/
def replace_stmts (parse : String → Except RewriteError Fragment)
    (pat repl : String) (ast : Fragment) : Except RewriteError Fragment :=
  match parse pat with
  | .error e => .error e
  | .ok p =>
    match parse repl with
    | .error e => .error e
    | .ok r => fold_match p (fun _ bnd => subst r bnd) ast

/-- A table-driven instance of the external textual parser: texts present in
the table parse to their fragment, all others are syntax errors. -/
def tableParse (tbl : List (String × Fragment)) (s : String) :
    Except RewriteError Fragment :=
  match tbl.lookup s with
  | some t => .ok t
  | none => .error (.parseError s)

mutual

/-- The number of positions of the target at which the pattern matches when
tried with bindings seeded from `ib` (every node is counted, in particular a
tree with this count zero contains no occurrence of the pattern at all). -/
def countMatches (ib : Bindings) (pat : Fragment) (t : Fragment) : Nat :=
  (if (mtch pat t ib).isSome then 1 else 0) +
    (match t with
     | .meta _ => 0
     | .node _ cs => countMatchesList ib pat cs)

/-- Sum of `countMatches` over a child list. -/
def countMatchesList (ib : Bindings) (pat : Fragment) : List Fragment → Nat
  | [] => 0
  | c :: cs => countMatches ib pat c + countMatchesList ib pat cs

end

mutual

/-- Stated from the spec's words, for comparison with the driver: the
bindings of the earliest pre-order position of the target at which the
pattern matches (the node itself first, then its children left to right). -/
def preorder_first (ib : Bindings) (pat : Fragment) (t : Fragment) :
    Option Bindings :=
  match mtch pat t ib with
  | some bnd => some bnd
  | none =>
    match t with
    | .meta _ => none
    | .node _ cs => preorder_first_list ib pat cs

/-- First pre-order match inside a child list, left to right. -/
def preorder_first_list (ib : Bindings) (pat : Fragment) :
    List Fragment → Option Bindings
  | [] => none
  | c :: cs =>
    match preorder_first ib pat c with
    | some bnd => some bnd
    | none => preorder_first_list ib pat cs

end

mutual

/-- Whether metavariable `z` occurs in a template fragment. -/
def occursMeta (z : String) : Fragment → Bool
  | .meta x => x == z
  | .node _ cs => occursMetaList z cs

/-- Whether metavariable `z` occurs in any fragment of a list. -/
def occursMetaList (z : String) : List Fragment → Bool
  | [] => false
  | c :: cs => occursMeta z c || occursMetaList z cs

end

/-! ## The `driver::Ctxt` extension helpers (api.rs:89-213)

The rustc side (HIR map, typeck tables, definition records) is opaque
external state; it is modelled as a record of query functions, and the
helpers are translated against it.  Rust panics become the error branch of an
`Except String` result. -/

/-- AST node ids (`syntax::ast::NodeId`, a `u32`). -/
abbrev NodeId := Nat

/-- `syntax::ast::DUMMY_NODE_ID`, `u32::MAX`. -/
def DUMMY_NODE_ID : NodeId := 4294967295

/-- Definition ids (`rustc::hir::def_id::DefId`), opaque here. -/
abbrev DefId := Nat

/-- Body ids (`rustc::hir::BodyId`), opaque here. -/
abbrev BodyId := Nat

/-- Semantic types (`rustc::ty::Ty`), opaque here. -/
abbrev Ty := Nat

/-- A definition record (`rustc::hir::def::Def`); all the helpers use of it is
`opt_def_id` (the `HirDefExt` trait), which is `none` for defs without a
`DefId` (primitives, `Def::Err`, ...). -/
structure Def where
  opt_def_id : Option DefId

/-- A resolved HIR path; the helpers only read its resolution `res`
(`path.def` in the source; `def` is a keyword here). -/
structure HirPath where
  res : Def

/-- `rustc::hir::QPath`: a fully resolved path or a type-relative one. -/
inductive QPath where
  | resolved (self_ty : Option Unit) (path : HirPath)
  | type_relative

/-- The kind of a HIR expression, as far as the helpers inspect it:
`hir::ExprPath` or anything else. -/
inductive HirExprKind where
  | exprPath (q : QPath)
  | exprOther

/-- A HIR expression (only its `node` field is read). -/
structure HirExpr where
  node : HirExprKind

/-- The kind of a HIR type: `hir::TyPath` or anything else. -/
inductive HirTyKind where
  | tyPath (q : QPath)
  | tyOther

/-- A HIR type (only its `node` field is read). -/
structure HirTy where
  node : HirTyKind

/-- A node of the HIR map (`hir::map::Node`), as far as the helpers inspect
it: an expression, a type, or anything else. -/
inductive HirNode where
  | nodeExpr (e : HirExpr)
  | nodeTy (t : HirTy)
  | nodeOther

/-- An adjustment record (`rustc::ty::adjustment::Adjustment`); the helpers
only read its `target` type. -/
structure Adjustment where
  target : Ty

/-- Typeck tables of one body (`rustc::ty::TypeckTables`): the recorded
adjustment list per node (absent for nodes without adjustments), the computed
type per node, and the type-dependent definition per node. -/
structure TypeckTables where
  adjustments : NodeId → Option (List Adjustment)
  node_id_to_type : NodeId → Ty
  type_dependent_defs : NodeId → Option Def

/-- The driver context (`driver::Ctxt`) as the helpers consume it: the HIR
map queries (`get_parent`, `maybe_body_owned_by`, `find`) and the typeck
tables per body.  `body_owned_by` is `maybe_body_owned_by` with a panic on
`none`. -/
structure Ctxt where
  get_parent : NodeId → NodeId
  maybe_body_owned_by : NodeId → Option BodyId
  body_tables : BodyId → TypeckTables
  find_node : NodeId → Option HirNode

mutual

/-- `syntax::ast::Expr`: an id plus a kind. -/
inductive Expr where
  | mk (id : NodeId) (node : ExprKind)

/-- `syntax::ast::ExprKind`, as far as the helpers inspect it: a call (with
its function subexpression), a method call, or anything else. -/
inductive ExprKind where
  | call (func : Expr) (args : List Expr)
  | methodCall (args : List Expr)
  | other

end

/-- The `id` field of an AST expression. -/
def Expr.id : Expr → NodeId
  | .mk i _ => i

/-- The `node` field of an AST expression. -/
def Expr.node : Expr → ExprKind
  | .mk _ k => k

/-- Whether an `ExprKind` is `Call` or `MethodCall`. -/
def ExprKind.is_call_like : ExprKind → Bool
  | .call _ _ => true
  | .methodCall _ => true
  | .other => false

/-- `syntax::ast::Ty` (only its `id` is read by the helpers). -/
structure AstTy where
  id : NodeId

/-- From api.rs:117-122: the type computed for a node, read from the typeck
tables of the body of the node's parent.  The panic of `body_owned_by` when
the parent owns no body is modelled as `none`. -/
def node_type (cx : Ctxt) (id : NodeId) : Option Ty :=
  match cx.maybe_body_owned_by (cx.get_parent id) with
  | none => none
  | some parent_body => some ((cx.body_tables parent_body).node_id_to_type id)

/-- From api.rs:124-133: the node's type after its last recorded adjustment,
falling back to the unadjusted type when none are recorded. -/
def adjusted_node_type (cx : Ctxt) (id : NodeId) : Option Ty :=
  match cx.maybe_body_owned_by (cx.get_parent id) with
  | none => none
  | some parent_body =>
    let tables := cx.body_tables parent_body
    match (tables.adjustments id).bind List.getLast? with
    | some adj => some adj.target
    | none => some (tables.node_id_to_type id)

/-- The typeck tables of the body enclosing a node, when that body exists. -/
def enclosing_tables (cx : Ctxt) (id : NodeId) : Option TypeckTables :=
  (cx.maybe_body_owned_by (cx.get_parent id)).map cx.body_tables

/-- From api.rs:150-160: the target `DefId` of a path expression — the HIR
node of `e.id` must be an expression whose kind is a resolved path carrying a
def id. -/
def try_resolve_expr (cx : Ctxt) (e : Expr) : Option DefId :=
  match cx.find_node e.id with
  | some (.nodeExpr he) =>
    match he.node with
    | .exprPath (.resolved _ path) => path.res.opt_def_id
    | _ => none
  | _ => none

/-- From api.rs:162-165: `try_resolve_expr`, panicking on `none`. -/
def resolve_expr (cx : Ctxt) (e : Expr) : Except String DefId :=
  match try_resolve_expr cx e with
  | some d => .ok d
  | none => .error "expr does not resolve to a def"

/-- From api.rs:167-177: the target `DefId` of a path type. -/
def try_resolve_ty (cx : Ctxt) (t : AstTy) : Option DefId :=
  match cx.find_node t.id with
  | some (.nodeTy ht) =>
    match ht.node with
    | .tyPath (.resolved _ path) => path.res.opt_def_id
    | _ => none
  | _ => none

/-- From api.rs:179-182: `try_resolve_ty`, panicking on `none`. -/
def resolve_ty (cx : Ctxt) (t : AstTy) : Except String DefId :=
  match try_resolve_ty cx t with
  | some d => .ok d
  | none => .error "ty does not resolve to a def"

/-- From api.rs:184-208: the `DefId` of the function or method called by a
`Call` or `MethodCall` expression: `none` for the dummy node id, for
expressions outside a body, and for every other expression kind; a `Call`'s
callee resolves first as a path and otherwise through the
type-dependent-defs table at the function subexpression's id; a
`MethodCall`'s through that table at the call's own id. -/
def opt_callee (cx : Ctxt) (e : Expr) : Option DefId :=
  if e.id = DUMMY_NODE_ID then none
  else
    match cx.maybe_body_owned_by (cx.get_parent e.id) with
    | none => none
    | some parent_body =>
      let tables := cx.body_tables parent_body
      match e.node with
      | .call func _ =>
        match try_resolve_expr cx func with
        | some def_id => some def_id
        | none => (tables.type_dependent_defs func.id).bind Def.opt_def_id
      | .methodCall _ => (tables.type_dependent_defs e.id).bind Def.opt_def_id
      | .other => none

/-- From api.rs:210-212: `opt_callee`, panicking (`expect`) on `none`. -/
def callee (cx : Ctxt) (e : Expr) : Except String DefId :=
  match opt_callee cx e with
  | some d => .ok d
  | none => .error "callee: expr is not a call"

deriving instance DecidableEq for Except

/-! ## Concrete fragments used by the examples of the specification -/

/-- The atom `a`. -/
def exA : Fragment := .node "a" []

/-- The atom `b`. -/
def exB : Fragment := .node "b" []

/-- The atom `x`. -/
def exX : Fragment := .node "x" []

/-- The application `f(t)`. -/
def mkF (t : Fragment) : Fragment := .node "f" [t]

/-- The application `g(t)`. -/
def mkG (t : Fragment) : Fragment := .node "g" [t]

/-- The pattern `f(Y)` with metavariable `Y`. -/
def patFY : Fragment := .node "f" [.meta "Y"]

/-- The template `g(Y)` with metavariable `Y`. -/
def replGY : Fragment := .node "g" [.meta "Y"]

/-- The template `g(Z)` with metavariable `Z`. -/
def replGZ : Fragment := .node "g" [.meta "Z"]

/-- The sum `s + t`. -/
def addF (s t : Fragment) : Fragment := .node "add" [s, t]

/-- The pattern `X + X` with the metavariable `X` occurring twice. -/
def patXX : Fragment := addF (.meta "X") (.meta "X")

/-! ## Helper lemmas about the driver -/

/-- The one-step unfolding of the driver, usable for rewriting (the
automatically generated equations split on the shape of the target first). -/
theorem fold_match_with_eq {σ : Type} (init_mcx : MatchCtxt) (pat : Fragment)
    (f : σ → Fragment → Bindings → Except RewriteError (σ × Fragment))
    (s : σ) : ∀ t : Fragment,
    fold_match_with init_mcx pat f s t =
      match mtch pat t init_mcx.bindings with
      | some bnd => f s t bnd
      | none =>
        match t with
        | .meta x => .ok (s, .meta x)
        | .node l cs =>
          match fold_match_with_list init_mcx pat f s cs with
          | .ok (s', cs') => .ok (s', .node l cs')
          | .error e => .error e
  | .meta _ => rfl
  | .node _ _ => rfl

/-- When the pattern matches at the root, `fold_match` is exactly the
callback's result there: the driver replaces the node and does not re-enter
the replacement. -/
theorem fold_match_root (pat : Fragment)
    (f : Fragment → Bindings → Except RewriteError Fragment) (t : Fragment)
    (bnd : Bindings) (h : mtch pat t [] = some bnd) :
    fold_match pat f t = f t bnd := by
  unfold fold_match
  rw [fold_match_with_eq]
  simp only [MatchCtxt.bindings] at h ⊢
  rw [h]
  cases hf : f t bnd <;> simp [hf]

/-- The driver over a child list is a no-op when no child contains a match
(assuming each child individually satisfies the no-match property). -/
theorem fold_match_with_list_no_match {σ : Type} (ib : Bindings)
    (pat : Fragment)
    (f : σ → Fragment → Bindings → Except RewriteError (σ × Fragment)) :
    ∀ cs : List Fragment,
      (∀ c ∈ cs, countMatches ib pat c = 0 →
        ∀ s : σ, fold_match_with ⟨ib⟩ pat f s c = .ok (s, c)) →
      countMatchesList ib pat cs = 0 →
      ∀ s : σ, fold_match_with_list ⟨ib⟩ pat f s cs = .ok (s, cs) := by
  intro cs
  induction cs with
  | nil => intro _ _ s; simp [fold_match_with_list]
  | cons c rest ih =>
    intro hmem hcount s
    have hc : countMatches ib pat c = 0 := by
      simp [countMatchesList] at hcount; omega
    have hrest : countMatchesList ib pat rest = 0 := by
      simp [countMatchesList] at hcount; omega
    have h1 := hmem c (by simp) hc s
    rw [fold_match_with_list, h1]
    simp only []
    rw [ih (fun c' hc' => hmem c' (by simp [hc'])) hrest s]

/-- A target with no occurrence of the pattern is traversed without any
callback invocation: the driver returns the state and the tree unchanged. -/
theorem fold_match_with_no_match {σ : Type} (ib : Bindings) (pat : Fragment)
    (f : σ → Fragment → Bindings → Except RewriteError (σ × Fragment)) :
    ∀ t : Fragment, countMatches ib pat t = 0 →
      ∀ s : σ, fold_match_with ⟨ib⟩ pat f s t = .ok (s, t) := by
  intro t
  induction t using Fragment.ind with
  | hm x =>
    intro h s
    have hm0 : mtch pat (.meta x) ib = none := by
      rw [countMatches] at h
      cases hmm : mtch pat (.meta x) ib <;> simp [hmm] at h ⊢
    rw [fold_match_with]
    simp only [MatchCtxt.bindings]
    rw [hm0]
  | hn l cs ihcs =>
    intro h s
    have hm0 : mtch pat (.node l cs) ib = none := by
      rw [countMatches] at h
      cases hmm : mtch pat (.node l cs) ib <;> simp [hmm] at h ⊢
    have hcount : countMatchesList ib pat cs = 0 := by
      rw [countMatches, hm0] at h
      simpa using h
    rw [fold_match_with]
    simp only [MatchCtxt.bindings]
    rw [hm0, fold_match_with_list_no_match ib pat f cs ihcs hcount s]

/-- Once the find-first callback has stored a result, the rest of the
traversal threads it through unchanged and rebuilds every node as it was
(child-list version; the hypothesis is the same fact for each child). -/
theorem fold_first_cb_list_some (ib : Bindings) (pat : Fragment) :
    ∀ cs : List Fragment,
      (∀ c ∈ cs, ∀ b,
        fold_match_with ⟨ib⟩ pat first_cb (some b) c = .ok (some b, c)) →
      ∀ b, fold_match_with_list ⟨ib⟩ pat first_cb (some b) cs =
        .ok (some b, cs) := by
  intro cs
  induction cs with
  | nil => intro _ b; simp [fold_match_with_list]
  | cons c rest ih =>
    intro hmem b
    rw [fold_match_with_list, hmem c (by simp) b]
    simp only []
    rw [ih (fun c' hc' => hmem c' (by simp [hc'])) b]

/-- Before any result is stored, traversing a child list with the find-first
callback stores the earliest pre-order match of the list and rebuilds every
child as it was (the hypothesis is the tree-level fact for each child). -/
theorem fold_first_cb_list_none (ib : Bindings) (pat : Fragment) :
    ∀ cs : List Fragment,
      (∀ c ∈ cs,
        (∀ b, fold_match_with ⟨ib⟩ pat first_cb (some b) c = .ok (some b, c)) ∧
        fold_match_with ⟨ib⟩ pat first_cb none c =
          .ok (preorder_first ib pat c, c)) →
      fold_match_with_list ⟨ib⟩ pat first_cb none cs =
        .ok (preorder_first_list ib pat cs, cs) := by
  intro cs
  induction cs with
  | nil => intro _; simp [fold_match_with_list, preorder_first_list]
  | cons c rest ih =>
    intro hmem
    rw [fold_match_with_list, (hmem c (by simp)).2]
    simp only []
    rw [preorder_first_list]
    cases hpf : preorder_first ib pat c with
    | none =>
      rw [ih (fun c' hc' => hmem c' (by simp [hc']))]
    | some b =>
      rw [fold_first_cb_list_some ib pat rest
        (fun c' hc' => (hmem c' (by simp [hc'])).1) b]

/-- The driver with the find-first callback: a stored result is final, and
starting from none it computes exactly the bindings of the earliest pre-order
matching position; in both cases the produced tree is the unmodified
target. -/
theorem fold_first_cb_spec (ib : Bindings) (pat : Fragment) :
    ∀ t : Fragment,
      (∀ b, fold_match_with ⟨ib⟩ pat first_cb (some b) t = .ok (some b, t)) ∧
      fold_match_with ⟨ib⟩ pat first_cb none t =
        .ok (preorder_first ib pat t, t) := by
  intro t
  induction t using Fragment.ind with
  | hm x =>
    constructor
    · intro b
      rw [fold_match_with_eq]
      simp only [MatchCtxt.bindings]
      cases hm : mtch pat (.meta x) ib <;> simp [hm, first_cb]
    · rw [fold_match_with_eq, preorder_first]
      simp only [MatchCtxt.bindings]
      cases hm : mtch pat (.meta x) ib <;> simp [hm, first_cb]
  | hn l cs ih =>
    constructor
    · intro b
      rw [fold_match_with_eq]
      simp only [MatchCtxt.bindings]
      cases hm : mtch pat (.node l cs) ib with
      | some bnd => simp [first_cb]
      | none =>
        rw [fold_first_cb_list_some ib pat cs (fun c hc => (ih c hc).1) b]
    · rw [fold_match_with_eq, preorder_first]
      simp only [MatchCtxt.bindings]
      cases hm : mtch pat (.node l cs) ib with
      | some bnd => simp [first_cb]
      | none =>
        rw [fold_first_cb_list_none ib pat cs ih]

/-- Every error of `substList` is an unbound-metavariable error for a name
absent from the bindings (child-list version, hypothesis per child). -/
theorem substList_error_form (bnd : Bindings) :
    ∀ cs : List Fragment,
      (∀ c ∈ cs, ∀ e, subst c bnd = .error e →
        ∃ y, e = .unboundVariableInTemplate y ∧ bnd.lookup y = none) →
      ∀ e, substList cs bnd = .error e →
        ∃ y, e = .unboundVariableInTemplate y ∧ bnd.lookup y = none := by
  intro cs
  induction cs with
  | nil => intro _ e h; simp [substList] at h
  | cons c rest ih =>
    intro hmem e h
    rw [substList] at h
    cases hsc : subst c bnd with
    | error e1 =>
      rw [hsc] at h
      simp only [] at h
      injection h with he
      subst he
      exact hmem c (by simp) _ hsc
    | ok c' =>
      rw [hsc] at h
      simp only [] at h
      cases hsr : substList rest bnd with
      | error e2 =>
        rw [hsr] at h
        simp only [] at h
        injection h with he
        subst he
        exact ih (fun c' hc' => hmem c' (by simp [hc'])) _ hsr
      | ok cs' => rw [hsr] at h; simp at h

/-- Every error of `subst` is an unbound-metavariable error for a name absent
from the bindings. -/
theorem subst_error_form (bnd : Bindings) :
    ∀ t : Fragment, ∀ e, subst t bnd = .error e →
      ∃ y, e = .unboundVariableInTemplate y ∧ bnd.lookup y = none := by
  intro t
  induction t using Fragment.ind with
  | hm x =>
    intro e h
    rw [subst] at h
    cases hl : bnd.lookup x with
    | some v => rw [hl] at h; simp at h
    | none =>
      rw [hl] at h
      simp only [] at h
      cases h
      exact ⟨x, rfl, hl⟩
  | hn l cs ih =>
    intro e h
    rw [subst] at h
    cases hsl : substList cs bnd with
    | error e1 =>
      rw [hsl] at h
      simp only [] at h
      injection h with he
      subst he
      exact substList_error_form bnd cs ih _ hsl
    | ok cs' => rw [hsl] at h; simp at h

/-- A child list containing an occurrence of a metavariable absent from the
bindings cannot be substituted: `substList` signals an unbound-metavariable
error (hypothesis per child). -/
theorem substList_unbound (z : String) (bnd : Bindings)
    (hz : bnd.lookup z = none) :
    ∀ cs : List Fragment,
      (∀ c ∈ cs, occursMeta z c = true →
        ∃ y, subst c bnd = .error (.unboundVariableInTemplate y)) →
      occursMetaList z cs = true →
      ∃ y, substList cs bnd = .error (.unboundVariableInTemplate y) := by
  intro cs
  induction cs with
  | nil => intro _ h; simp [occursMetaList] at h
  | cons c rest ih =>
    intro hmem hocc
    rw [occursMetaList] at hocc
    rw [substList]
    by_cases hc : occursMeta z c = true
    · obtain ⟨y, hy⟩ := hmem c (by simp) hc
      rw [hy]
      exact ⟨y, rfl⟩
    · have hrest : occursMetaList z rest = true := by
        cases hor : occursMeta z c <;> rw [hor] at hocc <;> simp at hocc ⊢
        · exact hocc
        · exact absurd hor hc
      cases hsc : subst c bnd with
      | error e =>
        obtain ⟨y, hye, _⟩ := subst_error_form bnd c e hsc
        exact ⟨y, by rw [hye]⟩
      | ok c' =>
        obtain ⟨y, hy⟩ := ih (fun c' hc' => hmem c' (by simp [hc'])) hrest
        rw [hy]
        exact ⟨y, rfl⟩

/-- Modelled guarantee of the spec (section 4.2): a template containing an
occurrence of a metavariable absent from the bindings cannot be substituted;
`subst` signals an unbound-metavariable error instead of producing a tree. -/
theorem subst_unbound (z : String) (bnd : Bindings)
    (hz : bnd.lookup z = none) :
    ∀ t : Fragment, occursMeta z t = true →
      ∃ y, subst t bnd = .error (.unboundVariableInTemplate y) := by
  intro t
  induction t using Fragment.ind with
  | hm x =>
    intro hocc
    rw [occursMeta] at hocc
    have hxz : x = z := by simpa using hocc
    subst hxz
    rw [subst, hz]
    exact ⟨x, rfl⟩
  | hn l cs ih =>
    intro hocc
    rw [occursMeta] at hocc
    obtain ⟨y, hy⟩ := substList_unbound z bnd hz cs ih hocc
    rw [subst, hy]
    exact ⟨y, rfl⟩

/-! ## The claims -/

/-- C1: rewriting with pattern `f(Y)` and replacement `g(Y)` does not
re-enter a freshly produced replacement node in the same pass — wherever the
pattern matches, the driver's result at that position is exactly the
substituted replacement with no further rewriting inside it; in particular
replace-all on `f(f(x))` yields `g(f(x))`, not `g(g(x))`. -/
theorem C1_no_reentry :
    (∀ t bnd, mtch patFY t [] = some bnd →
      fold_match patFY (fun _ b => subst replGY b) t = subst replGY bnd) ∧
    replace_expr (tableParse [("f(Y)", patFY), ("g(Y)", replGY)])
      "f(Y)" "g(Y)" (mkF (mkF exX)) = .ok (mkG (mkF exX)) ∧
    mkG (mkF exX) ≠ mkG (mkG exX) := by
  refine ⟨?_, by decide, by decide⟩
  intro t bnd h
  exact fold_match_root patFY _ t bnd h

/-- Witness for C1: the general non-re-entry conjunct applied to the target
`f(f(x))`, whose root matches with `Y` bound to `f(x)`. -/
theorem C1_no_reentry_witness :
    mtch patFY (mkF (mkF exX)) [] = some [("Y", mkF exX)] ∧
    fold_match patFY (fun _ b => subst replGY b) (mkF (mkF exX)) =
      subst replGY [("Y", mkF exX)] :=
  ⟨by decide, C1_no_reentry.1 (mkF (mkF exX)) [("Y", mkF exX)] (by decide)⟩

/-- C2: a metavariable that is already bound matches a candidate only when
the candidate equals the existing binding; in particular `X + X` matches
`a + a` (binding `X` to `a`) but not `a + b`. -/
theorem C2_binding_consistency :
    (∀ x c b t, (b : Bindings).lookup x = some t →
      mtch (.meta x) c b = if t = c then some b else none) ∧
    mtch patXX (addF exA exA) [] = some [("X", exA)] ∧
    mtch patXX (addF exA exB) [] = none := by
  refine ⟨?_, by decide, by decide⟩
  intro x c b t h
  unfold mtch MatchCtxt.try_match
  simp only [MatchCtxt.bindings]
  rw [matchInto, h]
  by_cases htc : t = c <;> simp [htc]

/-- Witness for C2: the bound-metavariable conjunct applied with `X` already
bound to `a` and candidate `b`. -/
theorem C2_binding_consistency_witness :
    ([("X", exA)] : Bindings).lookup "X" = some exA ∧
    mtch (.meta "X") exB [("X", exA)] =
      (if exA = exB then some [("X", exA)] else none) :=
  ⟨by decide, C2_binding_consistency.1 "X" exB [("X", exA)] exA (by decide)⟩

/-- C3: on a target with at least two matching positions, `find_first`
returns the bindings of the earliest pre-order matching position (the
spec-level `preorder_first`), and the underlying traversal rebuilds the
target unchanged. -/
theorem C3_find_first_earliest (pat t : Fragment)
    (h : 2 ≤ countMatches [] pat t) :
    find_first pat t = preorder_first [] pat t ∧
    fold_match_with ⟨[]⟩ pat first_cb none t =
      .ok (preorder_first [] pat t, t) := by
  have hspec := (fold_first_cb_spec [] pat t).2
  refine ⟨?_, hspec⟩
  unfold find_first find_first_with
  rw [hspec]

/-- Witness for C3: the target `h(f(a), f(b))` contains two occurrences of
`f(Y)`; `find_first` returns the bindings of the first, `Y ↦ a`. -/
theorem C3_find_first_earliest_witness :
    2 ≤ countMatches [] patFY (.node "h" [mkF exA, mkF exB]) ∧
    preorder_first [] patFY (.node "h" [mkF exA, mkF exB]) =
      some [("Y", exA)] ∧
    find_first patFY (.node "h" [mkF exA, mkF exB]) =
      preorder_first [] patFY (.node "h" [mkF exA, mkF exB]) ∧
    fold_match_with ⟨[]⟩ patFY first_cb none (.node "h" [mkF exA, mkF exB]) =
      .ok (preorder_first [] patFY (.node "h" [mkF exA, mkF exB]),
        .node "h" [mkF exA, mkF exB]) :=
  ⟨by decide, by decide,
    C3_find_first_earliest patFY (.node "h" [mkF exA, mkF exB]) (by decide)⟩

/-- C4: when the pattern matches at no position of the target, `replace_expr`
and `replace_stmts` return the target unchanged. -/
theorem C4_no_match_no_op
    (parse : String → Except RewriteError Fragment) (pat repl : String)
    (p r ast : Fragment) (hp : parse pat = .ok p) (hr : parse repl = .ok r)
    (h : countMatches [] p ast = 0) :
    replace_expr parse pat repl ast = .ok ast ∧
    replace_stmts parse pat repl ast = .ok ast := by
  have hfold : fold_match p (fun _ bnd => subst r bnd) ast = .ok ast := by
    unfold fold_match
    rw [fold_match_with_no_match [] p _ ast h ()]
  constructor
  · simp [replace_expr, hp, hr, hfold]
  · simp [replace_stmts, hp, hr, hfold]

/-- Witness for C4: the pattern `f(Y)` is absent from the atom `a`, so both
replace-all operations are the identity there. -/
theorem C4_no_match_no_op_witness :
    tableParse [("f(Y)", patFY), ("g(Y)", replGY)] "f(Y)" = .ok patFY ∧
    tableParse [("f(Y)", patFY), ("g(Y)", replGY)] "g(Y)" = .ok replGY ∧
    countMatches [] patFY exA = 0 ∧
    replace_expr (tableParse [("f(Y)", patFY), ("g(Y)", replGY)])
      "f(Y)" "g(Y)" exA = .ok exA ∧
    replace_stmts (tableParse [("f(Y)", patFY), ("g(Y)", replGY)])
      "f(Y)" "g(Y)" exA = .ok exA :=
  ⟨by decide, by decide, by decide,
    C4_no_match_no_op _ "f(Y)" "g(Y)" patFY replGY exA
      (by decide) (by decide) (by decide)⟩

/-- C5: with a pattern that is a bare metavariable and that same metavariable
as replacement, replace-all is the identity on every target. -/
theorem C5_round_trip
    (parse : String → Except RewriteError Fragment) (pat repl : String)
    (x : String) (ast : Fragment)
    (hp : parse pat = .ok (.meta x)) (hr : parse repl = .ok (.meta x)) :
    replace_expr parse pat repl ast = .ok ast := by
  have hroot : mtch (.meta x) ast [] = some [(x, ast)] := by
    unfold mtch MatchCtxt.try_match
    simp only [MatchCtxt.bindings]
    rw [matchInto]
    simp
  have hfold := fold_match_root (.meta x)
    (fun _ bnd => subst (.meta x) bnd) ast [(x, ast)] hroot
  simp only [] at hfold
  have hsub : subst (.meta x) [(x, ast)] = .ok ast := by
    rw [subst]
    simp
  simp [replace_expr, hp, hr, hfold, hsub]

/-- Witness for C5: replace-all of metavariable `X` by `X` on the target
`f(a)`. -/
theorem C5_round_trip_witness :
    tableParse [("X", .meta "X")] "X" = .ok (.meta "X") ∧
    replace_expr (tableParse [("X", .meta "X")]) "X" "X" (mkF exA) =
      .ok (mkF exA) :=
  ⟨by decide,
    C5_round_trip (tableParse [("X", .meta "X")]) "X" "X" "X" (mkF exA)
      (by decide) (by decide)⟩

/-- C6: substituting a template that references a metavariable absent from
the bindings signals `UnboundVariableInTemplate` and produces no output
tree; the whole rewrite operation aborts with that error rather than
returning a tree, as on `f(a)` with pattern `f(Y)` and replacement
`g(Z)`. -/
theorem C6_unbound_template_fails :
    (∀ tmpl bnd z, occursMeta z tmpl = true → (bnd : Bindings).lookup z = none →
      ∃ y, subst tmpl bnd = .error (.unboundVariableInTemplate y)) ∧
    replace_expr (tableParse [("f(Y)", patFY), ("g(Z)", replGZ)])
      "f(Y)" "g(Z)" (mkF exA) = .error (.unboundVariableInTemplate "Z") := by
  refine ⟨?_, by decide⟩
  intro tmpl bnd z hocc hz
  exact subst_unbound z bnd hz tmpl hocc

/-- Witness for C6: the template `g(Z)` references `Z`, which is absent from
the bindings `Y ↦ a`. -/
theorem C6_unbound_template_fails_witness :
    occursMeta "Z" replGZ = true ∧
    ([("Y", exA)] : Bindings).lookup "Z" = none ∧
    (∃ y, subst replGZ [("Y", exA)] =
      .error (.unboundVariableInTemplate y)) :=
  ⟨by decide, by decide,
    C6_unbound_template_fails.1 replGZ [("Y", exA)] "Z" (by decide) (by decide)⟩

/-- C7: a failed match attempt leaves the `MatchCtxt`'s prior bindings
exactly as they were, even though the attempt itself accumulates partial
bindings internally: matching `f(X, g())` against `f(a, h())` binds `X ↦ a`
before failing, yet `try_match` returns the untouched context. -/
theorem C7_failed_match_preserves_bindings :
    (∀ pat cand mcx, (MatchCtxt.try_match mcx pat cand).2 = none →
      (MatchCtxt.try_match mcx pat cand).1 = mcx) ∧
    matchInto (Fragment.node "f" [.meta "X", .node "g" []])
      (Fragment.node "f" [exA, .node "h" []]) [] = ([("X", exA)], false) ∧
    MatchCtxt.try_match ⟨[]⟩ (Fragment.node "f" [.meta "X", .node "g" []])
      (Fragment.node "f" [exA, .node "h" []]) = (⟨[]⟩, none) := by
  refine ⟨?_, by decide, by decide⟩
  intro pat cand mcx h
  unfold MatchCtxt.try_match at h ⊢
  by_cases hok : (matchInto pat cand mcx.bindings).2 = true <;>
    simp [hok] at h ⊢

/-- Witness for C7: the restoration conjunct applied to the failing attempt
of `f(X, g())` against `f(a, h())` from a context binding `W ↦ b`. -/
theorem C7_failed_match_preserves_bindings_witness :
    (MatchCtxt.try_match ⟨[("W", exB)]⟩
      (Fragment.node "f" [.meta "X", .node "g" []])
      (Fragment.node "f" [exA, .node "h" []])).2 = none ∧
    (MatchCtxt.try_match ⟨[("W", exB)]⟩
      (Fragment.node "f" [.meta "X", .node "g" []])
      (Fragment.node "f" [exA, .node "h" []])).1 = ⟨[("W", exB)]⟩ :=
  ⟨by decide,
    C7_failed_match_preserves_bindings.1
      (Fragment.node "f" [.meta "X", .node "g" []])
      (Fragment.node "f" [exA, .node "h" []]) ⟨[("W", exB)]⟩ (by decide)⟩

/-- C8: `replace_expr` and `replace_stmts` parse the pattern text and the
replacement text once each, before the traversal: a parse error of either
text is returned as the whole result for every target (so it is surfaced
before any matching and never mid-traversal), and when both parses succeed
the traversal runs on the two pre-parsed fragments. -/
theorem C8_parse_once_before_traversal
    (parse : String → Except RewriteError Fragment) (pat repl : String) :
    (∀ e, parse pat = .error e →
      ∀ ast, replace_expr parse pat repl ast = .error e ∧
        replace_stmts parse pat repl ast = .error e) ∧
    (∀ p e, parse pat = .ok p → parse repl = .error e →
      ∀ ast, replace_expr parse pat repl ast = .error e ∧
        replace_stmts parse pat repl ast = .error e) ∧
    (∀ p r, parse pat = .ok p → parse repl = .ok r →
      ∀ ast, replace_expr parse pat repl ast =
          fold_match p (fun _ bnd => subst r bnd) ast ∧
        replace_stmts parse pat repl ast =
          fold_match p (fun _ bnd => subst r bnd) ast) := by
  refine ⟨?_, ?_, ?_⟩
  · intro e he ast
    constructor <;> simp [replace_expr, replace_stmts, he]
  · intro p e hp he ast
    constructor <;> simp [replace_expr, replace_stmts, hp, he]
  · intro p r hp hr ast
    constructor <;> simp [replace_expr, replace_stmts, hp, hr]

/-- Witness for C8: with an empty parse table, the pattern text fails to
parse, and `replace_expr` returns exactly that parse error for the target
`a`. -/
theorem C8_parse_once_before_traversal_witness :
    tableParse [] "f(Y)" = .error (.parseError "f(Y)") ∧
    replace_expr (tableParse []) "f(Y)" "g(Y)" exA =
      .error (.parseError "f(Y)") ∧
    replace_stmts (tableParse []) "f(Y)" "g(Y)" exA =
      .error (.parseError "f(Y)") :=
  ⟨by decide,
    (C8_parse_once_before_traversal (tableParse []) "f(Y)" "g(Y)").1
      (.parseError "f(Y)") (by decide) exA⟩

/-- C9: `resolve_expr` returns a `DefId` exactly when `try_resolve_expr`
returns `some` of it, and panics (modelled as the error result) exactly when
`try_resolve_expr` returns `none`; likewise for `resolve_ty` versus
`try_resolve_ty` and for `callee` versus `opt_callee`. -/
theorem C9_resolve_panics_iff (cx : Ctxt) (e : Expr) (t : AstTy) :
    (∀ d, resolve_expr cx e = .ok d ↔ try_resolve_expr cx e = some d) ∧
    (try_resolve_expr cx e = none →
      resolve_expr cx e = .error "expr does not resolve to a def") ∧
    (∀ d, resolve_ty cx t = .ok d ↔ try_resolve_ty cx t = some d) ∧
    (try_resolve_ty cx t = none →
      resolve_ty cx t = .error "ty does not resolve to a def") ∧
    (∀ d, callee cx e = .ok d ↔ opt_callee cx e = some d) ∧
    (opt_callee cx e = none →
      callee cx e = .error "callee: expr is not a call") := by
  refine ⟨?_, ?_, ?_, ?_, ?_, ?_⟩
  · intro d; cases h : try_resolve_expr cx e <;> simp [resolve_expr, h]
  · intro h; simp [resolve_expr, h]
  · intro d; cases h : try_resolve_ty cx t <;> simp [resolve_ty, h]
  · intro h; simp [resolve_ty, h]
  · intro d; cases h : opt_callee cx e <;> simp [callee, h]
  · intro h; simp [callee, h]

/-- A concrete driver context for the witnesses: node 1 is a resolved path
expression with def id 42, node 2 a resolved path type with def id 43, every
other node is absent from the HIR map; every node's parent owns body 0,
whose tables record no adjustments, type `n + 100` for node `n`, and no
type-dependent defs. -/
def cxDemo : Ctxt :=
  { get_parent := fun n => n
    maybe_body_owned_by := fun _ => some 0
    body_tables := fun _ =>
      { adjustments := fun _ => none
        node_id_to_type := fun n => n + 100
        type_dependent_defs := fun _ => none }
    find_node := fun n =>
      if n = 1 then
        some (.nodeExpr ⟨.exprPath (.resolved none ⟨⟨some 42⟩⟩)⟩)
      else if n = 2 then
        some (.nodeTy ⟨.tyPath (.resolved none ⟨⟨some 43⟩⟩)⟩)
      else none }

/-- Witness for C9: in `cxDemo`, the expression with node id 7 resolves to
nothing, the type with node id 9 resolves to nothing, and the non-call
expression has no callee, so all three panicking variants return the
corresponding errors. -/
theorem C9_resolve_panics_iff_witness :
    try_resolve_expr cxDemo (.mk 7 .other) = none ∧
    resolve_expr cxDemo (.mk 7 .other) =
      .error "expr does not resolve to a def" ∧
    try_resolve_ty cxDemo ⟨9⟩ = none ∧
    resolve_ty cxDemo ⟨9⟩ = .error "ty does not resolve to a def" ∧
    opt_callee cxDemo (.mk 7 .other) = none ∧
    callee cxDemo (.mk 7 .other) = .error "callee: expr is not a call" :=
  ⟨by decide,
    (C9_resolve_panics_iff cxDemo (.mk 7 .other) ⟨9⟩).2.1 (by decide),
    by decide,
    (C9_resolve_panics_iff cxDemo (.mk 7 .other) ⟨9⟩).2.2.2.1 (by decide),
    by decide,
    (C9_resolve_panics_iff cxDemo (.mk 7 .other) ⟨9⟩).2.2.2.2.2 (by decide)⟩

/-- C10: when the enclosing body's tables record no adjustments for a node,
`adjusted_node_type` agrees with `node_type`; and `opt_callee` returns
`none` both for an expression whose id is `DUMMY_NODE_ID` and for an
expression that is neither a `Call` nor a `MethodCall`. -/
theorem C10_adjusted_and_callee (cx : Ctxt) (id : NodeId) (e : Expr) :
    ((∀ tb, enclosing_tables cx id = some tb → tb.adjustments id = none) →
      adjusted_node_type cx id = node_type cx id) ∧
    (e.id = DUMMY_NODE_ID → opt_callee cx e = none) ∧
    (e.node.is_call_like = false → opt_callee cx e = none) := by
  refine ⟨?_, ?_, ?_⟩
  · intro h
    unfold adjusted_node_type node_type
    cases hb : cx.maybe_body_owned_by (cx.get_parent id) with
    | none => rfl
    | some pb =>
      have hadj := h (cx.body_tables pb) (by simp [enclosing_tables, hb])
      simp [hadj]
  · intro h
    unfold opt_callee
    rw [if_pos h]
  · intro h
    unfold opt_callee
    by_cases hd : e.id = DUMMY_NODE_ID
    · rw [if_pos hd]
    · rw [if_neg hd]
      cases hb : cx.maybe_body_owned_by (cx.get_parent e.id) with
      | none => simp
      | some pb =>
        cases hk : e.node with
        | call f a => rw [hk] at h; simp [ExprKind.is_call_like] at h
        | methodCall a => rw [hk] at h; simp [ExprKind.is_call_like] at h
        | other => simp

/-- Witness for C10: in `cxDemo` no adjustments are recorded for node 5, so
both type queries agree there (on the type `105`); and `opt_callee` is
`none` on a dummy-id call and on the non-call expression with id 7. -/
theorem C10_adjusted_and_callee_witness :
    adjusted_node_type cxDemo 5 = node_type cxDemo 5 ∧
    node_type cxDemo 5 = some 105 ∧
    opt_callee cxDemo (.mk DUMMY_NODE_ID (.call (.mk 0 .other) [])) = none ∧
    opt_callee cxDemo (.mk 7 .other) = none :=
  ⟨(C10_adjusted_and_callee cxDemo 5 (.mk 7 .other)).1
      (fun tb h => by
        have h0 : enclosing_tables cxDemo 5 =
            some (cxDemo.body_tables 0) := rfl
        rw [h0] at h
        injection h with h2
        exact h2 ▸ rfl),
    by decide,
    (C10_adjusted_and_callee cxDemo 5
      (.mk DUMMY_NODE_ID (.call (.mk 0 .other) []))).2.1 (by decide),
    (C10_adjusted_and_callee cxDemo 5 (.mk 7 .other)).2.2 (by decide)⟩
